import Mathlib

/-!
Shallow embedding of the dispatch-and-fold reduction machinery of the
repository (src/src/unary/unary_red_util.h, src/src/unary/scalar_unary_red_omp.cc,
src/src/cupynumeric/index/repeat_template.inl,
src/src/cupynumeric/matrix/transpose_template.inl).

Modelling conventions:
* Machine integers are bit patterns in `ZMod (2^w)`; sums and products wrap
  modulo `2^w`, matching two's-complement arithmetic.  Signed orderings go
  through `sval`, the signed reading of a bit pattern.
* Floating-point element types are modelled by exact rationals and the two
  complex types by pairs of rationals; claims whose truth depends on exact
  IEEE-754 behaviour are not settled against this model.
* C assertions are modelled by `Option` (`none` = the assertion fires) or by
  an explicit `Bool` flag where the source continues past the assertion.
* `identity` members of `UnaryRedOp` and the Legion reduction classes are
  declared but not defined inside src/; they are modelled from the spec
  ("the neutral element for a given reduction operator and type"), and are
  given only for exactly-representable (integer and boolean) element types.
* Legion's `apply` and `fold` coincide for the sum/prod/max/min reduction
  classes used here (both combine an LHS and RHS of the same type with the
  same arithmetic); both are modelled by `foldOp`.
-/

namespace CuNumeric

/-- The closed set of reduction operator codes, from `enum class UnaryRedCode`
in unary_red_util.h (MAX = 1, MIN = 2, PROD = 3, SUM = 4). -/
inductive UnaryRedCode : Type where
  | MAX
  | MIN
  | PROD
  | SUM
deriving DecidableEq, Repr

/-- The integer value of an operator code, as fixed by the C++ enum. -/
def UnaryRedCode.toInt : UnaryRedCode → Int
  | .MAX => 1
  | .MIN => 2
  | .PROD => 3
  | .SUM => 4

/-- The legate element-type tags (the `LegateTypeCode` enumeration used by
unary_red_util.h); `MAX_TYPE_NUMBER` is the sentinel used by `UntypedScalar`
for the untyped/empty state. -/
inductive LegateTypeCode : Type where
  | BOOL_LT
  | INT8_LT
  | INT16_LT
  | INT32_LT
  | INT64_LT
  | UINT8_LT
  | UINT16_LT
  | UINT32_LT
  | UINT64_LT
  | HALF_LT
  | FLOAT_LT
  | DOUBLE_LT
  | COMPLEX64_LT
  | COMPLEX128_LT
  | MAX_TYPE_NUMBER
deriving DecidableEq, Repr

/-- Carrier of each element type (`legate_type_of<TYPE_CODE>`).  Integer types
are bit patterns in `ZMod (2^w)`; floating types are modelled by exact
rationals, complex types by pairs of rationals; the sentinel carries no data. -/
@[reducible] def TypeVal : LegateTypeCode → Type
  | .BOOL_LT => Bool
  | .INT8_LT => ZMod (2 ^ 8)
  | .INT16_LT => ZMod (2 ^ 16)
  | .INT32_LT => ZMod (2 ^ 32)
  | .INT64_LT => ZMod (2 ^ 64)
  | .UINT8_LT => ZMod (2 ^ 8)
  | .UINT16_LT => ZMod (2 ^ 16)
  | .UINT32_LT => ZMod (2 ^ 32)
  | .UINT64_LT => ZMod (2 ^ 64)
  | .HALF_LT => ℚ
  | .FLOAT_LT => ℚ
  | .DOUBLE_LT => ℚ
  | .COMPLEX64_LT => ℚ × ℚ
  | .COMPLEX128_LT => ℚ × ℚ
  | .MAX_TYPE_NUMBER => Unit

instance instNeZeroTwoPow (w : ℕ) : NeZero (2 ^ w) :=
  ⟨(Nat.pos_pow_of_pos w (by norm_num)).ne'⟩

instance TypeVal.decEq : (t : LegateTypeCode) → DecidableEq (TypeVal t)
  | .BOOL_LT => inferInstanceAs (DecidableEq Bool)
  | .INT8_LT => inferInstanceAs (DecidableEq (ZMod (2 ^ 8)))
  | .INT16_LT => inferInstanceAs (DecidableEq (ZMod (2 ^ 16)))
  | .INT32_LT => inferInstanceAs (DecidableEq (ZMod (2 ^ 32)))
  | .INT64_LT => inferInstanceAs (DecidableEq (ZMod (2 ^ 64)))
  | .UINT8_LT => inferInstanceAs (DecidableEq (ZMod (2 ^ 8)))
  | .UINT16_LT => inferInstanceAs (DecidableEq (ZMod (2 ^ 16)))
  | .UINT32_LT => inferInstanceAs (DecidableEq (ZMod (2 ^ 32)))
  | .UINT64_LT => inferInstanceAs (DecidableEq (ZMod (2 ^ 64)))
  | .HALF_LT => inferInstanceAs (DecidableEq ℚ)
  | .FLOAT_LT => inferInstanceAs (DecidableEq ℚ)
  | .DOUBLE_LT => inferInstanceAs (DecidableEq ℚ)
  | .COMPLEX64_LT => inferInstanceAs (DecidableEq (ℚ × ℚ))
  | .COMPLEX128_LT => inferInstanceAs (DecidableEq (ℚ × ℚ))
  | .MAX_TYPE_NUMBER => inferInstanceAs (DecidableEq Unit)

/-- Legion `MaxReduction::fold` over unsigned bit patterns:
`if (rhs2 > rhs1) rhs1 = rhs2`. -/
def umax {m : ℕ} (a b : ZMod m) : ZMod m :=
  if a.val < b.val then b else a

/-- Legion `MinReduction::fold` over unsigned bit patterns:
`if (rhs2 < rhs1) rhs1 = rhs2`. -/
def umin {m : ℕ} (a b : ZMod m) : ZMod m :=
  if b.val < a.val then b else a

/-- Signed (two's-complement) reading of a `w`-bit pattern. -/
def sval (w : ℕ) (x : ZMod (2 ^ w)) : ℤ :=
  if x.val < 2 ^ (w - 1) then (x.val : ℤ) else (x.val : ℤ) - 2 ^ w

/-- Legion `MaxReduction::fold` over signed `w`-bit integers. -/
def smax {w : ℕ} (a b : ZMod (2 ^ w)) : ZMod (2 ^ w) :=
  if sval w a < sval w b then b else a

/-- Legion `MinReduction::fold` over signed `w`-bit integers. -/
def smin {w : ℕ} (a b : ZMod (2 ^ w)) : ZMod (2 ^ w) :=
  if sval w b < sval w a then b else a

/-- Complex lexicographic strict order (the ordering legate defines on
complex values: real part first, then imaginary part). -/
def cltb (a b : ℚ × ℚ) : Bool :=
  a.1 < b.1 || (a.1 = b.1 && a.2 < b.2)

/-- Max of two complex values under the lexicographic order. -/
def cmax (a b : ℚ × ℚ) : ℚ × ℚ :=
  if cltb a b then b else a

/-- Min of two complex values under the lexicographic order. -/
def cmin (a b : ℚ × ℚ) : ℚ × ℚ :=
  if cltb b a then b else a

/-- Componentwise complex addition. -/
def cadd (a b : ℚ × ℚ) : ℚ × ℚ :=
  (a.1 + b.1, a.2 + b.2)

/-- Complex multiplication. -/
def cmul (a b : ℚ × ℚ) : ℚ × ℚ :=
  (a.1 * b.1 - a.2 * b.2, a.1 * b.2 + a.2 * b.1)

/-- The typed combining operation of `UnaryRedOp<OP_CODE, TYPE_CODE>` (its
`OP::fold`, which for the Legion sum/prod/max/min reduction classes performs
the same arithmetic as `OP::apply`). -/
def foldOp : (op : UnaryRedCode) → (t : LegateTypeCode) → TypeVal t → TypeVal t → TypeVal t
  | .SUM, .BOOL_LT => fun a b => a || b
  | .SUM, .INT8_LT => fun a b => a + b
  | .SUM, .INT16_LT => fun a b => a + b
  | .SUM, .INT32_LT => fun a b => a + b
  | .SUM, .INT64_LT => fun a b => a + b
  | .SUM, .UINT8_LT => fun a b => a + b
  | .SUM, .UINT16_LT => fun a b => a + b
  | .SUM, .UINT32_LT => fun a b => a + b
  | .SUM, .UINT64_LT => fun a b => a + b
  | .SUM, .HALF_LT => fun a b => a + b
  | .SUM, .FLOAT_LT => fun a b => a + b
  | .SUM, .DOUBLE_LT => fun a b => a + b
  | .SUM, .COMPLEX64_LT => cadd
  | .SUM, .COMPLEX128_LT => cadd
  | .SUM, .MAX_TYPE_NUMBER => fun a _ => a
  | .PROD, .BOOL_LT => fun a b => a && b
  | .PROD, .INT8_LT => fun a b => a * b
  | .PROD, .INT16_LT => fun a b => a * b
  | .PROD, .INT32_LT => fun a b => a * b
  | .PROD, .INT64_LT => fun a b => a * b
  | .PROD, .UINT8_LT => fun a b => a * b
  | .PROD, .UINT16_LT => fun a b => a * b
  | .PROD, .UINT32_LT => fun a b => a * b
  | .PROD, .UINT64_LT => fun a b => a * b
  | .PROD, .HALF_LT => fun a b => a * b
  | .PROD, .FLOAT_LT => fun a b => a * b
  | .PROD, .DOUBLE_LT => fun a b => a * b
  | .PROD, .COMPLEX64_LT => cmul
  | .PROD, .COMPLEX128_LT => cmul
  | .PROD, .MAX_TYPE_NUMBER => fun a _ => a
  | .MAX, .BOOL_LT => fun a b => a || b
  | .MAX, .INT8_LT => smax
  | .MAX, .INT16_LT => smax
  | .MAX, .INT32_LT => smax
  | .MAX, .INT64_LT => smax
  | .MAX, .UINT8_LT => umax
  | .MAX, .UINT16_LT => umax
  | .MAX, .UINT32_LT => umax
  | .MAX, .UINT64_LT => umax
  | .MAX, .HALF_LT => fun a b => max a b
  | .MAX, .FLOAT_LT => fun a b => max a b
  | .MAX, .DOUBLE_LT => fun a b => max a b
  | .MAX, .COMPLEX64_LT => cmax
  | .MAX, .COMPLEX128_LT => cmax
  | .MAX, .MAX_TYPE_NUMBER => fun a _ => a
  | .MIN, .BOOL_LT => fun a b => a && b
  | .MIN, .INT8_LT => smin
  | .MIN, .INT16_LT => smin
  | .MIN, .INT32_LT => smin
  | .MIN, .INT64_LT => smin
  | .MIN, .UINT8_LT => umin
  | .MIN, .UINT16_LT => umin
  | .MIN, .UINT32_LT => umin
  | .MIN, .UINT64_LT => umin
  | .MIN, .HALF_LT => fun a b => min a b
  | .MIN, .FLOAT_LT => fun a b => min a b
  | .MIN, .DOUBLE_LT => fun a b => min a b
  | .MIN, .COMPLEX64_LT => cmin
  | .MIN, .COMPLEX128_LT => cmin
  | .MIN, .MAX_TYPE_NUMBER => fun a _ => a

/-- Modelled from the spec: the `static const VAL identity` members declared
by `UnaryRedOp` are defined in a translation unit absent from src/; the spec
describes them as "the neutral element for a given reduction operator and
type" (0 for SUM, 1 for PROD, and the type's least/greatest value for
MAX/MIN).  They are given here for the exactly-representable (integer and
boolean) element types; floating and complex identities depend on IEEE-754
encodings and are left unmodelled (`none`). -/
def identityOp : (op : UnaryRedCode) → (t : LegateTypeCode) → Option (TypeVal t)
  | .SUM, .BOOL_LT => some false
  | .SUM, .INT8_LT => some 0
  | .SUM, .INT16_LT => some 0
  | .SUM, .INT32_LT => some 0
  | .SUM, .INT64_LT => some 0
  | .SUM, .UINT8_LT => some 0
  | .SUM, .UINT16_LT => some 0
  | .SUM, .UINT32_LT => some 0
  | .SUM, .UINT64_LT => some 0
  | .PROD, .BOOL_LT => some true
  | .PROD, .INT8_LT => some 1
  | .PROD, .INT16_LT => some 1
  | .PROD, .INT32_LT => some 1
  | .PROD, .INT64_LT => some 1
  | .PROD, .UINT8_LT => some 1
  | .PROD, .UINT16_LT => some 1
  | .PROD, .UINT32_LT => some 1
  | .PROD, .UINT64_LT => some 1
  | .MAX, .BOOL_LT => some false
  | .MAX, .INT8_LT => some ((2 ^ 7 : ℕ) : ZMod (2 ^ 8))
  | .MAX, .INT16_LT => some ((2 ^ 15 : ℕ) : ZMod (2 ^ 16))
  | .MAX, .INT32_LT => some ((2 ^ 31 : ℕ) : ZMod (2 ^ 32))
  | .MAX, .INT64_LT => some ((2 ^ 63 : ℕ) : ZMod (2 ^ 64))
  | .MAX, .UINT8_LT => some 0
  | .MAX, .UINT16_LT => some 0
  | .MAX, .UINT32_LT => some 0
  | .MAX, .UINT64_LT => some 0
  | .MIN, .BOOL_LT => some true
  | .MIN, .INT8_LT => some ((2 ^ 7 - 1 : ℕ) : ZMod (2 ^ 8))
  | .MIN, .INT16_LT => some ((2 ^ 15 - 1 : ℕ) : ZMod (2 ^ 16))
  | .MIN, .INT32_LT => some ((2 ^ 31 - 1 : ℕ) : ZMod (2 ^ 32))
  | .MIN, .INT64_LT => some ((2 ^ 63 - 1 : ℕ) : ZMod (2 ^ 64))
  | .MIN, .UINT8_LT => some ((2 ^ 8 - 1 : ℕ) : ZMod (2 ^ 8))
  | .MIN, .UINT16_LT => some ((2 ^ 16 - 1 : ℕ) : ZMod (2 ^ 16))
  | .MIN, .UINT32_LT => some ((2 ^ 32 - 1 : ℕ) : ZMod (2 ^ 32))
  | .MIN, .UINT64_LT => some ((2 ^ 64 - 1 : ℕ) : ZMod (2 ^ 64))
  | _, _ => none

/-- The `valid` flag of `UnaryRedOp<OP_CODE, TYPE_CODE>`: the generic
template sets `valid = true` for each of MAX/MIN/PROD/SUM, and the only
`valid = false` specializations are the three for `COMPLEX128_LT`
(unary_red_util.h lines 74-77, 95-98, 116-119). -/
def UnaryRedOp_valid : UnaryRedCode → LegateTypeCode → Bool
  | .MAX, .COMPLEX128_LT => false
  | .MIN, .COMPLEX128_LT => false
  | .PROD, .COMPLEX128_LT => false
  | _, _ => true

/-- `UntypedScalarRedOp::apply_fn` specialized at a type code: for a valid
(operator, type) combination it is the typed `OP::apply`; for an invalid one
the enable_if overload fires `assert(false)` (modelled by `none`). -/
def applyFn (op : UnaryRedCode) (t : LegateTypeCode) :
    Option (TypeVal t → TypeVal t → TypeVal t) :=
  if UnaryRedOp_valid op t then some (foldOp op t) else none

/-- `UntypedScalarRedOp::fold_fn` specialized at a type code: the typed
`OP::fold` when valid, `assert(false)` (modelled by `none`) when invalid. -/
def foldFn (op : UnaryRedCode) (t : LegateTypeCode) :
    Option (TypeVal t → TypeVal t → TypeVal t) :=
  if UnaryRedOp_valid op t then some (foldOp op t) else none

/-- The type-erased reduction value (`UntypedScalar`): a type tag plus one
payload of the tagged type.  `code = MAX_TYPE_NUMBER` is the untyped/empty
state (its payload carries no data). -/
structure UntypedScalar : Type where
  code : LegateTypeCode
  payload : TypeVal code

namespace UntypedScalarRedOp

/-- `type_dispatch(lhs.code(), apply_fn{}, lhs.ptr(), rhs.ptr())`: dispatch
on the left value's tag to the typed apply over the raw payloads.  `none`
models the fatal assertion (unrecognized/sentinel tag, invalid combination)
and the out-of-contract case where the right payload is not of the
dispatched type (reinterpreting it would be undefined behaviour). -/
def applyTyped (op : UnaryRedCode) (lhs rhs : UntypedScalar) : Option UntypedScalar :=
  if lhs.code = .MAX_TYPE_NUMBER then none
  else if h : rhs.code = lhs.code then
    match applyFn op lhs.code with
    | some f => some ⟨lhs.code, f lhs.payload (h ▸ rhs.payload)⟩
    | none => none
  else none

/-- `type_dispatch(rhs1.code(), fold_fn{}, rhs1.ptr(), rhs2.ptr())`. -/
def foldTyped (op : UnaryRedCode) (rhs1 rhs2 : UntypedScalar) : Option UntypedScalar :=
  if rhs1.code = .MAX_TYPE_NUMBER then none
  else if h : rhs2.code = rhs1.code then
    match foldFn op rhs1.code with
    | some f => some ⟨rhs1.code, f rhs1.payload (h ▸ rhs2.payload)⟩
    | none => none
  else none

/-- `UntypedScalarRedOp::apply` (unary_red_util.h lines 190-198), at the
`EXCLUSIVE = true` instantiation used by every call site: if `lhs` is
untyped, assign `rhs` into it; otherwise dispatch on `lhs`'s tag. -/
def apply (op : UnaryRedCode) (lhs rhs : UntypedScalar) : Option UntypedScalar :=
  if lhs.code = .MAX_TYPE_NUMBER then some rhs
  else applyTyped op lhs rhs

/-- `UntypedScalarRedOp::fold` (unary_red_util.h lines 200-208), at the
`EXCLUSIVE = true` instantiation: if `rhs1` is untyped, assign `rhs2` into
it; otherwise dispatch on `rhs1`'s tag. -/
def fold (op : UnaryRedCode) (rhs1 rhs2 : UntypedScalar) : Option UntypedScalar :=
  if rhs1.code = .MAX_TYPE_NUMBER then some rhs2
  else foldTyped op rhs1 rhs2

end UntypedScalarRedOp

/-- An untyped/empty `UntypedScalar`. -/
def emptyScalarEx : UntypedScalar :=
  ⟨.MAX_TYPE_NUMBER, ()⟩

/-- A concrete int32-typed `UntypedScalar` holding 5. -/
def int32ScalarEx : UntypedScalar :=
  ⟨.INT32_LT, (5 : ZMod (2 ^ 32))⟩

/-- `op_dispatch` (unary_red_util.h lines 36-51).  The runtime operator code
is an arbitrary machine integer; the `Bool` component records whether the
`assert(false)` after the switch was reached (with assertions disabled the
function continues and returns the MAX specialization's result).  The
callable `f` receives the compile-time operator code and the forwarded
arguments. -/
def op_dispatch {α β : Type} (op_code : Int) (f : UnaryRedCode → α → β) (args : α) :
    Bool × β :=
  if op_code = 1 then (false, f .MAX args)
  else if op_code = 2 then (false, f .MIN args)
  else if op_code = 3 then (false, f .PROD args)
  else if op_code = 4 then (false, f .SUM args)
  else (true, f .MAX args)

/-- Observable effects of one `RepeatImpl::operator()` invocation. -/
structure RepeatRes (β : Type) : Type where
  boundEmptyData : Bool
  invokedKernel : Bool
  written : List β

/-- `RepeatImpl::operator()` (repeat_template.inl lines 32-53): on an empty
input rectangle, bind explicitly-empty output data exactly when repeat
counts come as an array (`!scalar_repeats`) and return; otherwise run the
specialized `RepeatImplBody` (abstracted as `body`, which produces the
written elements). -/
def RepeatImpl {α β : Type} (body : α → List β) (inputEmpty scalarRepeats : Bool)
    (input : α) : RepeatRes β :=
  if inputEmpty then
    { boundEmptyData := !scalarRepeats, invokedKernel := false, written := [] }
  else
    { boundEmptyData := false, invokedKernel := true, written := body input }

/-- `TransposeImpl::operator()` (transpose_template.inl lines 31-45): on an
empty rectangle return early; otherwise run the specialized
`TransposeImplBody`.  The pair records (kernel invoked, elements written). -/
def TransposeImpl {α β : Type} (body : α → List β) (rectEmpty : Bool) (input : α) :
    Bool × List β :=
  if rectEmpty then (false, [])
  else (true, body input)

/-- Shared-memory state of the OMP scalar reduction: one private accumulator
per lane and the not-yet-folded remainder of each lane's statically assigned
chunk. -/
structure OMPState (V : Type) : Type where
  locals : ℕ → V
  queues : ℕ → List V

/-- Initial state of `ScalarUnaryRedImplBody<VariantKind::OMP>::operator()`:
every lane's accumulator holds the operator's identity
(`locals[idx] = OP::identity`), and lane `i` still has to fold its entire
chunk. -/
def ompInit {V : Type} (e : V) (chunks : List (List V)) : OMPState V :=
  { locals := fun _ => e, queues := fun i => chunks.getD i [] }

/-- One scheduler step: lane `l` folds the next element of its own chunk
into its own accumulator (`OP::fold<true>(locals[tid], inptr[idx])`); a lane
with an exhausted chunk does nothing. -/
def ompStep {V : Type} (f : V → V → V) (st : OMPState V) (l : ℕ) : OMPState V :=
  match st.queues l with
  | [] => st
  | x :: xs =>
    { locals := Function.update st.locals l (f (st.locals l) x)
      queues := Function.update st.queues l xs }

/-- Run the parallel phase under an explicit interleaving of lane steps. -/
def ompExec {V : Type} (f : V → V → V) (st : OMPState V) : List ℕ → OMPState V
  | [] => st
  | l :: s => ompExec f (ompStep f st l) s

/-- Full result of the OMP scalar reduction under interleaving `s`: run the
parallel phase, then sequentially fold every lane's accumulator into the
result in lane-index order
(`for (idx = 0; idx < max_threads; ++idx) OP::fold<true>(result, locals[idx])`). -/
def ompResult {V : Type} (f : V → V → V) (e r0 : V) (chunks : List (List V))
    (s : List ℕ) : V :=
  (((List.range chunks.length).map (ompExec f (ompInit e chunks) s).locals).foldl f r0)

/-- Sequential reference semantics: fold the whole sequence in original
order into a single identity-seeded accumulator. -/
def foldSeq {V : Type} (f : V → V → V) (e : V) (xs : List V) : V :=
  xs.foldl f e

/-- The per-lane accumulators: each lane group folded into a lane-private
accumulator seeded with the identity. -/
def laneAccums {V : Type} (f : V → V → V) (e : V) (lanes : List (List V)) : List V :=
  lanes.map (foldSeq f e)

/-- Combine phase: fold all lane accumulators together, in lane order,
starting from the identity-seeded result. -/
def combineLanes {V : Type} (f : V → V → V) (e : V) (lanes : List (List V)) : V :=
  (laneAccums f e lanes).foldl f e

/-- The three algebraic laws the spec requires of a reduction fold:
associativity, commutativity and the left identity law. -/
structure FoldLaws {V : Type} (f : V → V → V) (e : V) : Prop where
  assoc : ∀ a b c, f (f a b) c = f a (f b c)
  comm : ∀ a b, f a b = f b a
  id_left : ∀ a, f e a = a

theorem FoldLaws.id_right {V : Type} {f : V → V → V} {e : V} (h : FoldLaws f e) (a : V) :
    f a e = a :=
  (h.comm a e).trans (h.id_left a)

theorem FoldLaws.foldl_shift {V : Type} {f : V → V → V} {e : V} (h : FoldLaws f e)
    (a : V) (l : List V) : l.foldl f a = f a (l.foldl f e) := by
  induction l generalizing a with
  | nil => exact (h.id_right a).symm
  | cons x l ih =>
    simp only [List.foldl_cons]
    rw [ih (f a x), ih (f e x), h.id_left x, h.assoc]

theorem foldSeq_cons {V : Type} {f : V → V → V} {e : V} (h : FoldLaws f e)
    (x : V) (l : List V) : foldSeq f e (x :: l) = f x (foldSeq f e l) := by
  unfold foldSeq
  simp only [List.foldl_cons]
  rw [h.foldl_shift (f e x) l, h.id_left x]

theorem foldSeq_append {V : Type} {f : V → V → V} {e : V} (h : FoldLaws f e)
    (l1 l2 : List V) : foldSeq f e (l1 ++ l2) = f (foldSeq f e l1) (foldSeq f e l2) := by
  unfold foldSeq
  rw [List.foldl_append, h.foldl_shift]

theorem foldSeq_perm {V : Type} {f : V → V → V} {e : V} (h : FoldLaws f e)
    {l1 l2 : List V} (hp : l1.Perm l2) : foldSeq f e l1 = foldSeq f e l2 := by
  induction hp with
  | nil => rfl
  | cons x _ ih => rw [foldSeq_cons h, foldSeq_cons h, ih]
  | swap x y l =>
    rw [foldSeq_cons h, foldSeq_cons h, foldSeq_cons h, foldSeq_cons h,
      ← h.assoc, ← h.assoc, h.comm y x]
  | trans _ _ ih1 ih2 => exact ih1.trans ih2

theorem combineLanes_eq_join {V : Type} {f : V → V → V} {e : V} (h : FoldLaws f e)
    (lanes : List (List V)) : combineLanes f e lanes = foldSeq f e lanes.flatten := by
  induction lanes with
  | nil => rfl
  | cons g gs ih =>
    unfold combineLanes laneAccums at ih ⊢
    simp only [List.map_cons, List.foldl_cons, List.flatten_cons]
    rw [h.foldl_shift (f e (foldSeq f e g)), h.id_left, ih, foldSeq_append h]

theorem partition_reduction {V : Type} {f : V → V → V} {e : V} (h : FoldLaws f e)
    (lanes : List (List V)) (xs : List V) (hp : lanes.flatten.Perm xs) :
    combineLanes f e lanes = foldSeq f e xs :=
  (combineLanes_eq_join h lanes).trans (foldSeq_perm h hp)

theorem val_umax {m : ℕ} (a b : ZMod m) : (umax a b).val = max a.val b.val := by
  unfold umax
  split
  · exact (Nat.max_eq_right (Nat.le_of_lt ‹_›)).symm
  · exact (Nat.max_eq_left (Nat.le_of_not_lt ‹_›)).symm

theorem val_umin {m : ℕ} (a b : ZMod m) : (umin a b).val = min a.val b.val := by
  unfold umin
  split
  · exact (Nat.min_eq_right (Nat.le_of_lt ‹_›)).symm
  · exact (Nat.min_eq_left (Nat.le_of_not_lt ‹_›)).symm

theorem umax_laws (m : ℕ) [NeZero m] : FoldLaws (@umax m) 0 := by
  refine ⟨?_, ?_, ?_⟩
  · intro a b c
    apply ZMod.val_injective m
    simp only [val_umax]
    exact Nat.max_assoc _ _ _
  · intro a b
    apply ZMod.val_injective m
    simp only [val_umax]
    exact Nat.max_comm _ _
  · intro a
    apply ZMod.val_injective m
    simp only [val_umax, ZMod.val_zero]
    exact Nat.zero_max _

theorem umin_laws (m : ℕ) [NeZero m] : FoldLaws (@umin m) ((m - 1 : ℕ) : ZMod m) := by
  have hm : 0 < m := Nat.pos_of_ne_zero (NeZero.ne m)
  have hv : (((m - 1 : ℕ) : ZMod m)).val = m - 1 := ZMod.val_cast_of_lt (by omega)
  refine ⟨?_, ?_, ?_⟩
  · intro a b c
    apply ZMod.val_injective m
    simp only [val_umin]
    exact Nat.min_assoc _ _ _
  · intro a b
    apply ZMod.val_injective m
    simp only [val_umin]
    exact Nat.min_comm _ _
  · intro a
    apply ZMod.val_injective m
    have := ZMod.val_lt a
    simp only [val_umin, hv]
    exact Nat.min_eq_right (by omega)

theorem sval_lt (w : ℕ) (x : ZMod (2 ^ w)) : sval w x < (2 : ℤ) ^ (w - 1) := by
  unfold sval
  split
  · exact_mod_cast ‹_›
  · have hB : (x.val : ℤ) < (2 : ℤ) ^ w := by exact_mod_cast ZMod.val_lt x
    have hA : (0 : ℤ) < (2 : ℤ) ^ (w - 1) := by positivity
    omega

theorem two_pow_split (w : ℕ) (hw : 0 < w) :
    (2 : ℤ) ^ (w - 1) + (2 : ℤ) ^ (w - 1) = (2 : ℤ) ^ w := by
  calc (2 : ℤ) ^ (w - 1) + (2 : ℤ) ^ (w - 1) = (2 : ℤ) ^ (w - 1) * 2 := by ring
    _ = (2 : ℤ) ^ (w - 1 + 1) := (pow_succ 2 (w - 1)).symm
    _ = (2 : ℤ) ^ w := by rw [Nat.sub_add_cancel hw]

theorem sval_ge (w : ℕ) (hw : 0 < w) (x : ZMod (2 ^ w)) :
    -((2 : ℤ) ^ (w - 1)) ≤ sval w x := by
  have hs := two_pow_split w hw
  unfold sval
  split
  · have h2 : (0 : ℤ) ≤ (x.val : ℤ) := Int.ofNat_nonneg _
    have h3 : (0 : ℤ) < (2 : ℤ) ^ (w - 1) := by positivity
    omega
  · have h5 : ((2 : ℤ) ^ (w - 1)) ≤ (x.val : ℤ) := by
      exact_mod_cast Nat.le_of_not_lt ‹_›
    omega

theorem sval_inj (w : ℕ) {a b : ZMod (2 ^ w)} (h : sval w a = sval w b) : a = b := by
  have haz : (a.val : ℤ) < (2 : ℤ) ^ w := by exact_mod_cast ZMod.val_lt a
  have hbz : (b.val : ℤ) < (2 : ℤ) ^ w := by exact_mod_cast ZMod.val_lt b
  apply ZMod.val_injective
  unfold sval at h
  split at h <;> split at h <;> omega

theorem sval_smax {w : ℕ} (a b : ZMod (2 ^ w)) :
    sval w (smax a b) = max (sval w a) (sval w b) := by
  unfold smax
  split
  · exact (max_eq_right (le_of_lt ‹_›)).symm
  · exact (max_eq_left (le_of_not_lt ‹_›)).symm

theorem sval_smin {w : ℕ} (a b : ZMod (2 ^ w)) :
    sval w (smin a b) = min (sval w a) (sval w b) := by
  unfold smin
  split
  · exact (min_eq_right (le_of_lt ‹_›)).symm
  · exact (min_eq_left (le_of_not_lt ‹_›)).symm

theorem smax_laws (w : ℕ) (hw : 0 < w) :
    FoldLaws (@smax w) (((2 ^ (w - 1) : ℕ) : ZMod (2 ^ w))) := by
  have hs := two_pow_split w hw
  have hpos : (0 : ℤ) < (2 : ℤ) ^ (w - 1) := by positivity
  have hvid : (((2 ^ (w - 1) : ℕ) : ZMod (2 ^ w))).val = 2 ^ (w - 1) := by
    apply ZMod.val_cast_of_lt
    have hc : ((2 ^ (w - 1) : ℕ) : ℤ) = (2 : ℤ) ^ (w - 1) := by push_cast; ring
    have hcw : ((2 ^ w : ℕ) : ℤ) = (2 : ℤ) ^ w := by push_cast; ring
    omega
  have hsvid : sval w (((2 ^ (w - 1) : ℕ) : ZMod (2 ^ w))) = -((2 : ℤ) ^ (w - 1)) := by
    unfold sval
    rw [hvid, if_neg (lt_irrefl _)]
    have hc : ((2 ^ (w - 1) : ℕ) : ℤ) = (2 : ℤ) ^ (w - 1) := by push_cast; ring
    omega
  refine ⟨?_, ?_, ?_⟩
  · intro a b c
    apply sval_inj w
    simp only [sval_smax]
    exact max_assoc _ _ _
  · intro a b
    apply sval_inj w
    simp only [sval_smax]
    exact max_comm _ _
  · intro a
    apply sval_inj w
    rw [sval_smax, hsvid]
    exact max_eq_right (sval_ge w hw a)

theorem smin_laws (w : ℕ) (hw : 0 < w) :
    FoldLaws (@smin w) (((2 ^ (w - 1) - 1 : ℕ) : ZMod (2 ^ w))) := by
  have hs := two_pow_split w hw
  have hpos : (0 : ℤ) < (2 : ℤ) ^ (w - 1) := by positivity
  have hc : ((2 ^ (w - 1) : ℕ) : ℤ) = (2 : ℤ) ^ (w - 1) := by push_cast; ring
  have hcw : ((2 ^ w : ℕ) : ℤ) = (2 : ℤ) ^ w := by push_cast; ring
  have hvid : (((2 ^ (w - 1) - 1 : ℕ) : ZMod (2 ^ w))).val = 2 ^ (w - 1) - 1 := by
    apply ZMod.val_cast_of_lt
    omega
  have hsvid : sval w (((2 ^ (w - 1) - 1 : ℕ) : ZMod (2 ^ w))) = (2 : ℤ) ^ (w - 1) - 1 := by
    unfold sval
    rw [hvid, if_pos (by omega)]
    omega
  refine ⟨?_, ?_, ?_⟩
  · intro a b c
    apply sval_inj w
    simp only [sval_smin]
    exact min_assoc _ _ _
  · intro a b
    apply sval_inj w
    simp only [sval_smin]
    exact min_comm _ _
  · intro a
    apply sval_inj w
    rw [sval_smin, hsvid]
    exact min_eq_right (by have := sval_lt w a; omega)

theorem addLawsZMod (m : ℕ) : FoldLaws (fun a b : ZMod m => a + b) 0 :=
  ⟨fun a b c => add_assoc a b c, fun a b => add_comm a b, fun a => zero_add a⟩

theorem mulLawsZMod (m : ℕ) : FoldLaws (fun a b : ZMod m => a * b) 1 :=
  ⟨fun a b c => mul_assoc a b c, fun a b => mul_comm a b, fun a => one_mul a⟩

theorem boolOrLaws : FoldLaws (fun a b : Bool => a || b) false :=
  ⟨Bool.or_assoc, Bool.or_comm, Bool.false_or⟩

theorem boolAndLaws : FoldLaws (fun a b : Bool => a && b) true :=
  ⟨Bool.and_assoc, Bool.and_comm, Bool.true_and⟩

/-- For every (operator, element type) pair whose identity is exactly
representable (integer and boolean element types), the registry's fold is
associative and commutative and the identity is a left unit. -/
theorem foldOp_laws (op : UnaryRedCode) (t : LegateTypeCode) (e : TypeVal t)
    (he : identityOp op t = some e) : FoldLaws (foldOp op t) e := by
  cases op <;> cases t <;> simp only [identityOp] at he <;>
    first
      | exact Option.noConfusion he
      | (injection he with he
         subst he
         first
           | exact addLawsZMod _
           | exact mulLawsZMod _
           | exact boolOrLaws
           | exact boolAndLaws
           | exact umax_laws _
           | exact umin_laws _
           | exact smax_laws 8 (by norm_num)
           | exact smax_laws 16 (by norm_num)
           | exact smax_laws 32 (by norm_num)
           | exact smax_laws 64 (by norm_num)
           | exact smin_laws 8 (by norm_num)
           | exact smin_laws 16 (by norm_num)
           | exact smin_laws 32 (by norm_num)
           | exact smin_laws 64 (by norm_num))

/-- Claim C1: for every reduction operator in MAX/MIN/PROD/SUM and every
finite sequence over an integer or boolean element type (the types whose
identity is exactly representable), partitioning the sequence arbitrarily
into lane groups, folding each group into a lane-private accumulator seeded
with the operator's identity, and then folding all lane accumulators
together equals folding the full sequence in original order into a single
identity-seeded accumulator. -/
theorem lane_partition_eq_sequential (op : UnaryRedCode) (t : LegateTypeCode)
    (e : TypeVal t) (he : identityOp op t = some e)
    (lanes : List (List (TypeVal t))) (xs : List (TypeVal t))
    (hp : lanes.flatten.Perm xs) :
    combineLanes (foldOp op t) e lanes = foldSeq (foldOp op t) e xs :=
  partition_reduction (foldOp_laws op t e he) lanes xs hp

/-- Witness for C1, the spec's end-to-end scenario 1: SUM over [1,2,3,4]
split across the 2 lanes [1,2] and [3,4] gives lane accumulators 3 and 7
and combined result 10, equal to the sequential fold. -/
theorem lane_partition_eq_sequential_witness :
    identityOp .SUM .INT32_LT = some 0 ∧
    laneAccums (foldOp .SUM .INT32_LT) 0 [[1, 2], [3, 4]] = [3, 7] ∧
    foldSeq (foldOp .SUM .INT32_LT) 0 [1, 2, 3, 4] = 10 ∧
    combineLanes (foldOp .SUM .INT32_LT) 0 [[1, 2], [3, 4]] =
      foldSeq (foldOp .SUM .INT32_LT) 0 [1, 2, 3, 4] :=
  ⟨rfl, by decide, by decide,
    lane_partition_eq_sequential .SUM .INT32_LT 0 rfl [[1, 2], [3, 4]] [1, 2, 3, 4]
      (List.Perm.refl _)⟩

/-- Claim C3, counterexample: the claim says every (ordering operator,
complex element type) combination is marked invalid, but the registry's
generic template leaves MAX and MIN over complex64 with `valid = true`;
only the complex128 specializations are invalid. -/
theorem ordering_over_complex64_marked_valid :
    UnaryRedOp_valid .MAX .COMPLEX64_LT = true ∧
    UnaryRedOp_valid .MIN .COMPLEX64_LT = true :=
  ⟨rfl, rfl⟩

/-- Claim C3, amended: the ordering operators MAX and MIN over complex128
are marked invalid in the registry (complex64 stays valid via the generic
template), and invoking the descriptor's fold/apply for any invalid
combination hits the assertion (modelled by `none`), never silently
producing a value. -/
theorem invalid_combinations_assert (op : UnaryRedCode) (t : LegateTypeCode)
    (lhs rhs : UntypedScalar) :
    (UnaryRedOp_valid .MAX .COMPLEX128_LT = false ∧
      UnaryRedOp_valid .MIN .COMPLEX128_LT = false) ∧
    (UnaryRedOp_valid op t = false → applyFn op t = none ∧ foldFn op t = none) ∧
    (UnaryRedOp_valid op lhs.code = false →
      UntypedScalarRedOp.applyTyped op lhs rhs = none ∧
      UntypedScalarRedOp.foldTyped op lhs rhs = none) := by
  refine ⟨⟨rfl, rfl⟩, ?_, ?_⟩
  · intro h
    constructor <;> simp [applyFn, foldFn, h]
  · intro h
    have hfn1 : applyFn op lhs.code = none := by simp [applyFn, h]
    have hfn2 : foldFn op lhs.code = none := by simp [foldFn, h]
    constructor
    · unfold UntypedScalarRedOp.applyTyped
      split
      · rfl
      · split
        · rw [hfn1]
        · rfl
    · unfold UntypedScalarRedOp.foldTyped
      split
      · rfl
      · split
        · rw [hfn2]
        · rfl

/-- Witness for the amended C3 at a concrete invalid combination
(MAX over complex128). -/
theorem invalid_combinations_assert_witness :
    UnaryRedOp_valid .MAX .COMPLEX128_LT = false ∧
    applyFn .MAX .COMPLEX128_LT = none ∧
    UntypedScalarRedOp.foldTyped .MAX ⟨.COMPLEX128_LT, ((0 : ℚ), (0 : ℚ))⟩
      ⟨.COMPLEX128_LT, ((1 : ℚ), (0 : ℚ))⟩ = none :=
  ⟨rfl,
    (invalid_combinations_assert .MAX .COMPLEX128_LT
      ⟨.COMPLEX128_LT, ((0 : ℚ), (0 : ℚ))⟩ ⟨.COMPLEX128_LT, ((1 : ℚ), (0 : ℚ))⟩).2.1
      rfl |>.1,
    (invalid_combinations_assert .MAX .COMPLEX128_LT
      ⟨.COMPLEX128_LT, ((0 : ℚ), (0 : ℚ))⟩ ⟨.COMPLEX128_LT, ((1 : ℚ), (0 : ℚ))⟩).2.2
      rfl |>.2⟩

/-- Claim C4: for each operator code in the enumerated set, op_dispatch
invokes exactly the one specialization of the callable parameterized by
that code, forwarding the additional arguments unchanged and reaching no
assertion; a code outside the enumerated set reaches the assertion. -/
theorem op_dispatch_exact {α β : Type} (f : UnaryRedCode → α → β) (args : α) :
    (∀ rc : UnaryRedCode, op_dispatch rc.toInt f args = (false, f rc args)) ∧
    (∀ c : Int, (∀ rc : UnaryRedCode, rc.toInt ≠ c) → (op_dispatch c f args).1 = true) := by
  constructor
  · intro rc
    cases rc <;> rfl
  · intro c h
    have h1 : ¬(c = 1) := fun hc => h .MAX hc.symm
    have h2 : ¬(c = 2) := fun hc => h .MIN hc.symm
    have h3 : ¬(c = 3) := fun hc => h .PROD hc.symm
    have h4 : ¬(c = 4) := fun hc => h .SUM hc.symm
    unfold op_dispatch
    rw [if_neg h1, if_neg h2, if_neg h3, if_neg h4]

/-- Witness for C4: dispatching code 4 invokes the SUM specialization with
no assertion, and dispatching code 7 reaches the assertion. -/
theorem op_dispatch_exact_witness :
    op_dispatch (UnaryRedCode.toInt .SUM) (fun rc (_ : Unit) => rc) () = (false, .SUM) ∧
    (op_dispatch 7 (fun rc (_ : Unit) => rc) ()).1 = true :=
  ⟨(op_dispatch_exact (fun rc (_ : Unit) => rc) ()).1 .SUM,
    (op_dispatch_exact (fun rc (_ : Unit) => rc) ()).2 7
      (by intro rc; cases rc <;> decide)⟩

/-- Claim C5: for the type-erased reduction value, `apply(lhs, rhs)` with
`lhs` untyped assigns `rhs`'s type tag and payload into `lhs` (first write
wins the type, an assignment rather than a merge); with `lhs` typed it
dispatches on `lhs`'s tag, and on a valid same-type combination the result
is the typed operator applied to the raw payloads. -/
theorem untyped_apply_assign_or_dispatch (op : UnaryRedCode) (lhs rhs : UntypedScalar) :
    (lhs.code = .MAX_TYPE_NUMBER → UntypedScalarRedOp.apply op lhs rhs = some rhs) ∧
    (lhs.code ≠ .MAX_TYPE_NUMBER →
      UntypedScalarRedOp.apply op lhs rhs = UntypedScalarRedOp.applyTyped op lhs rhs) ∧
    (∀ (_hne : lhs.code ≠ .MAX_TYPE_NUMBER) (he : rhs.code = lhs.code),
      UnaryRedOp_valid op lhs.code = true →
      UntypedScalarRedOp.apply op lhs rhs =
        some ⟨lhs.code, foldOp op lhs.code lhs.payload (he ▸ rhs.payload)⟩) := by
  refine ⟨?_, ?_, ?_⟩
  · intro h
    unfold UntypedScalarRedOp.apply
    rw [if_pos h]
  · intro h
    unfold UntypedScalarRedOp.apply
    rw [if_neg h]
  · intro hne he hv
    unfold UntypedScalarRedOp.apply UntypedScalarRedOp.applyTyped
    rw [if_neg hne, if_neg hne, dif_pos he]
    have hf : applyFn op lhs.code = some (foldOp op lhs.code) := by
      simp [applyFn, hv]
    rw [hf]

/-- Witness for C5: the empty-to-typed transition is exactly an assignment,
and a same-type apply on int32 values 5 and 5 dispatches to the typed sum,
giving 10. -/
theorem untyped_apply_assign_or_dispatch_witness :
    UntypedScalarRedOp.apply .SUM emptyScalarEx int32ScalarEx = some int32ScalarEx ∧
    UntypedScalarRedOp.apply .SUM int32ScalarEx int32ScalarEx =
      some ⟨.INT32_LT, (10 : ZMod (2 ^ 32))⟩ := by
  constructor
  · exact (untyped_apply_assign_or_dispatch .SUM emptyScalarEx int32ScalarEx).1 rfl
  · rw [(untyped_apply_assign_or_dispatch .SUM int32ScalarEx int32ScalarEx).2.2
      (by decide) rfl rfl]
    rfl

/-- Claim C6, counterexample: the claim says the type-erased `fold` is
merge-only and never performs the empty-to-typed assignment, but on an
untyped first argument `fold` assigns the second argument (while the typed
dispatch it would otherwise take yields the assertion). -/
theorem untyped_fold_assigns_when_untyped :
    UntypedScalarRedOp.fold .SUM emptyScalarEx int32ScalarEx = some int32ScalarEx ∧
    UntypedScalarRedOp.foldTyped .SUM emptyScalarEx int32ScalarEx = none ∧
    some int32ScalarEx ≠ (none : Option UntypedScalar) :=
  ⟨rfl, rfl, Option.some_ne_none _⟩

/-- Claim C6, amended: the type-erased `fold` has exactly the same
assign-or-merge branching as `apply`: an untyped first argument receives
the second by assignment, a typed first argument dispatches on its tag to
the typed fold; the two functions behave identically. -/
theorem untyped_fold_assign_or_merge (op : UnaryRedCode) (rhs1 rhs2 : UntypedScalar) :
    (rhs1.code = .MAX_TYPE_NUMBER → UntypedScalarRedOp.fold op rhs1 rhs2 = some rhs2) ∧
    (rhs1.code ≠ .MAX_TYPE_NUMBER →
      UntypedScalarRedOp.fold op rhs1 rhs2 = UntypedScalarRedOp.foldTyped op rhs1 rhs2) ∧
    UntypedScalarRedOp.fold op rhs1 rhs2 = UntypedScalarRedOp.apply op rhs1 rhs2 := by
  refine ⟨?_, ?_, rfl⟩
  · intro h
    unfold UntypedScalarRedOp.fold
    rw [if_pos h]
  · intro h
    unfold UntypedScalarRedOp.fold
    rw [if_neg h]

/-- Witness for the amended C6 at concrete values: a typed first argument
goes through the typed dispatch, an untyped one receives the assignment. -/
theorem untyped_fold_assign_or_merge_witness :
    UntypedScalarRedOp.fold .PROD int32ScalarEx int32ScalarEx =
      UntypedScalarRedOp.foldTyped .PROD int32ScalarEx int32ScalarEx ∧
    UntypedScalarRedOp.fold .PROD emptyScalarEx int32ScalarEx = some int32ScalarEx :=
  ⟨(untyped_fold_assign_or_merge .PROD int32ScalarEx int32ScalarEx).2.1 (by decide),
    (untyped_fold_assign_or_merge .PROD emptyScalarEx int32ScalarEx).1 rfl⟩

/-- Claim C7: on an empty primary index domain the repeat task binds an
explicitly-empty output exactly when repeat counts are given as an array
(the non-scalar-parameterized case) and returns early, and the transpose
task returns early; neither invokes the specialized kernel body or writes
any element. -/
theorem empty_domain_short_circuit {α β : Type} (body : α → List β)
    (scalarRepeats : Bool) (input : α) :
    (RepeatImpl body true scalarRepeats input).invokedKernel = false ∧
    (RepeatImpl body true scalarRepeats input).written = [] ∧
    (RepeatImpl body true scalarRepeats input).boundEmptyData = !scalarRepeats ∧
    TransposeImpl body true input = (false, []) :=
  ⟨rfl, rfl, rfl, rfl⟩

/-- Claim C9: the registry marks PROD over complex128 invalid (the explicit
specialization at unary_red_util.h lines 116-119), even though the generic
PROD template leaves every other element type, including complex64, valid. -/
theorem prod_complex128_marked_invalid :
    UnaryRedOp_valid .PROD .COMPLEX128_LT = false ∧
    UnaryRedOp_valid .PROD .COMPLEX64_LT = true :=
  ⟨rfl, rfl⟩

/-- Claim C10: when op_dispatch receives an operator code outside the
enumerated set and the assertion does not abort, it falls through and
invokes the callable's MAX specialization: the assertion flag is set, yet
the returned value is the MAX specialization's result on the forwarded
arguments. -/
theorem op_dispatch_unrecognized_returns_max {α β : Type} (f : UnaryRedCode → α → β)
    (args : α) (c : Int) (h : ∀ rc : UnaryRedCode, rc.toInt ≠ c) :
    op_dispatch c f args = (true, f .MAX args) := by
  have h1 : ¬(c = 1) := fun hc => h .MAX hc.symm
  have h2 : ¬(c = 2) := fun hc => h .MIN hc.symm
  have h3 : ¬(c = 3) := fun hc => h .PROD hc.symm
  have h4 : ¬(c = 4) := fun hc => h .SUM hc.symm
  unfold op_dispatch
  rw [if_neg h1, if_neg h2, if_neg h3, if_neg h4]

/-- Witness for C10 at the unrecognized code 0. -/
theorem op_dispatch_unrecognized_returns_max_witness :
    op_dispatch 0 (fun rc (_ : Unit) => rc.toInt) () = (true, UnaryRedCode.toInt .MAX) :=
  op_dispatch_unrecognized_returns_max (fun rc (_ : Unit) => rc.toInt) () 0
    (by intro rc; cases rc <;> decide)

theorem omp_exec_locals {V : Type} (f : V → V → V) (s : List ℕ) (st : OMPState V)
    (i : ℕ) (h : (ompExec f st s).queues i = []) :
    (ompExec f st s).locals i = (st.queues i).foldl f (st.locals i) := by
  induction s generalizing st with
  | nil =>
    simp only [ompExec] at h ⊢
    rw [h]
    rfl
  | cons l s ih =>
    simp only [ompExec] at h ⊢
    rw [ih (ompStep f st l) h]
    unfold ompStep
    rcases hq : st.queues l with _ | ⟨x, xs⟩
    · rfl
    · by_cases hi : i = l
      · subst hi
        simp only [Function.update_same]
        rw [hq, List.foldl_cons]
      · simp only [Function.update_noteq hi]

/-- Claim C8: the shared-memory scalar reduction is deterministic for a
fixed configuration: with a fixed lane count and static chunk assignment,
any two complete interleavings of the lanes' private-accumulator folds,
followed by the sequential lane-index-order combine, produce identical
results, for every combining operation and seed (in particular for every
registry operator with its identity). -/
theorem omp_reduction_deterministic {V : Type} (f : V → V → V) (e r0 : V)
    (chunks : List (List V)) (s1 s2 : List ℕ)
    (h1 : ∀ i, i < chunks.length → (ompExec f (ompInit e chunks) s1).queues i = [])
    (h2 : ∀ i, i < chunks.length → (ompExec f (ompInit e chunks) s2).queues i = []) :
    ompResult f e r0 chunks s1 = ompResult f e r0 chunks s2 := by
  unfold ompResult
  have hmap : (List.range chunks.length).map (ompExec f (ompInit e chunks) s1).locals =
      (List.range chunks.length).map (ompExec f (ompInit e chunks) s2).locals := by
    apply List.map_congr_left
    intro a ha
    have halt : a < chunks.length := List.mem_range.mp ha
    rw [omp_exec_locals f s1 _ a (h1 a halt), omp_exec_locals f s2 _ a (h2 a halt)]
  rw [hmap]

/-- Witness for C8: two different complete interleavings of the 2-lane SUM
over chunks [1,2] and [3,4] give the same result. -/
theorem omp_reduction_deterministic_witness :
    (∀ i, i < 2 →
      (ompExec (fun a b : ℤ => a + b) (ompInit 0 [[1, 2], [3, 4]]) [0, 1, 0, 1]).queues i = []) ∧
    ompResult (fun a b : ℤ => a + b) 0 0 [[1, 2], [3, 4]] [0, 1, 0, 1] =
      ompResult (fun a b : ℤ => a + b) 0 0 [[1, 2], [3, 4]] [1, 1, 0, 0] := by
  refine ⟨by decide, ?_⟩
  exact omp_reduction_deterministic (fun a b : ℤ => a + b) 0 0 [[1, 2], [3, 4]]
    [0, 1, 0, 1] [1, 1, 0, 0] (by decide) (by decide)

end CuNumeric
